import Mathlib

/-!
Verification of the pipeline engine specified for `localai-serve.py`.

The source wires a chat prompt template, a model client and a string
output parser into a linear chain (`chain = prompt_template | model | parser`)
and mounts it over HTTP (`add_routes(app, chain, path="/chain")`).
The composition/execution/HTTP-binding machinery lives in external
libraries, so those parts are modelled from the spec; the concrete
template strings, the parser behaviour, the stage order of the mounted
chain, and the environment-variable mutation are taken from the source.
-/

/-- Roles of chat messages, as used by the prompt template in the source
(`system`, `user`) and by model responses (`assistant`). -/
inductive Role where
  | system
  | user
  | assistant
deriving DecidableEq

/-- A chat message: a role together with its text content. -/
structure ChatMessage where
  role : Role
  content : String
deriving DecidableEq

/-- Values flowing through the pipeline: JSON-like request objects,
plain strings, prompt message lists and single (model output) messages. -/
inductive Value where
  | vStr (s : String)
  | vObj (fields : List (String × Value))
  | vMessages (msgs : List ChatMessage)
  | vMessage (msg : ChatMessage)

/-- Modelled from the spec: field types of a structural schema
(the schema registry describes fields as name, type and optionality). -/
inductive FieldType where
  | fString
deriving DecidableEq, BEq

/-- Modelled from the spec: a field description `{type, required}`. -/
structure FieldSpec where
  ftype : FieldType
  required : Bool
deriving DecidableEq, BEq

/-- Modelled from the spec: a structural schema — either an object schema
(field name to field spec) or one of the primitive payload shapes that
the pipeline stages exchange. -/
inductive Schema where
  | obj (fields : List (String × FieldSpec))
  | strS
  | messagesS
  | messageS
deriving DecidableEq, BEq

/-- Modelled from the spec: a stage's internal failure record
`StageError{stage_name, cause}`. -/
structure StageError where
  stage_name : String
  cause : String
deriving DecidableEq

/-- Modelled from the spec: a request-validation failure; it names the
offending field. -/
structure ValidationError where
  field : String
deriving DecidableEq

/-- Modelled from the spec: the error produced when two stages with
incompatible schemas are composed; it records the two schemas. -/
structure CompositionError where
  fromSchema : Schema
  toSchema : Schema
deriving DecidableEq

/-- Modelled from the spec: a Stage — a unit of computation with declared
input/output schemas, a synchronous call, and a streaming call (default:
the single-element sequence holding the result of `run`). -/
structure Stage where
  name : String
  input_schema : Schema
  output_schema : Schema
  run : Value → Except StageError Value
  stream : Value → List Value := fun x =>
    match run x with
    | .ok y => [y]
    | .error _ => []

/-- Look up a field in an association list of object fields. -/
def lookupField : List (String × Value) → String → Option Value
  | [], _ => none
  | (k, v) :: rest, n => if k = n then some v else lookupField rest n

/-- Look up a field spec in an object schema's field list. -/
def lookupSpec : List (String × FieldSpec) → String → Option FieldSpec
  | [], _ => none
  | (k, fs) :: rest, n => if k = n then some fs else lookupSpec rest n

/-- Modelled from the spec: whether a value matches a declared field type. -/
def typeMatches : FieldType → Value → Bool
  | .fString, .vStr _ => true
  | .fString, _ => false

/-- Modelled from the spec: one producing field is assignable to one
consuming field spec when the consumer is optional, or the producer has
the field with a compatible type. -/
def fieldAssignable (out : List (String × FieldSpec)) (n : String) (fs : FieldSpec) : Bool :=
  if fs.required then
    match lookupSpec out n with
    | some fs' => fs'.ftype == fs.ftype
    | none => false
  else true

/-- Modelled from the spec: structural assignability of schemas — every
required field of the consumer must be offered by the producer with a
compatible type; primitive shapes must agree exactly. -/
def assignable : Schema → Schema → Bool
  | .obj fa, .obj fb => fb.all (fun p => fieldAssignable fa p.1 p.2)
  | a, b => a == b

/-- Modelled from the spec: check an object's fields against an object
schema's field list — required fields must be present and type-compatible;
unknown extra fields are ignored (permissive default). -/
def checkFields (avail : List (String × Value)) : List (String × FieldSpec) → Except ValidationError Unit
  | [] => .ok ()
  | (n, fs) :: rest =>
    match lookupField avail n with
    | none => if fs.required then .error ⟨n⟩ else checkFields avail rest
    | some v => if typeMatches fs.ftype v then checkFields avail rest else .error ⟨n⟩

/-- Modelled from the spec: `validate(schema, value)` returns the value
unchanged or a `ValidationError` naming the bad field. -/
def validate (sch : Schema) (v : Value) : Except ValidationError Value :=
  match sch with
  | .obj fields =>
    match v with
    | .vObj fv =>
      match checkFields fv fields with
      | .ok _ => .ok v
      | .error e => .error e
    | _ => .error ⟨"$body"⟩
  | .strS => match v with | .vStr _ => .ok v | _ => .error ⟨"$body"⟩
  | .messagesS => match v with | .vMessages _ => .ok v | _ => .error ⟨"$body"⟩
  | .messageS => match v with | .vMessage _ => .ok v | _ => .error ⟨"$body"⟩

/-- Modelled from the spec: the derived input schema of a chain is its
first stage's input schema. -/
def inputSchemaOf : List Stage → Schema
  | [] => .obj []
  | s :: _ => s.input_schema

/-- Modelled from the spec: the derived output schema of a chain is its
last stage's output schema. -/
def outputSchemaOf : List Stage → Schema
  | [] => .obj []
  | [s] => s.output_schema
  | _ :: s :: rest => outputSchemaOf (s :: rest)

/-- Modelled from the spec: `compose(a, b)` validates the producer's
output schema against the consumer's input schema at composition time and
fails with a `CompositionError` when incompatible; composing chains
concatenates their stage sequences (a chain is itself a stage sequence,
so this also covers composing a stage with a chain). -/
def compose (a b : List Stage) : Except CompositionError (List Stage) :=
  if assignable (outputSchemaOf a) (inputSchemaOf b) then .ok (a ++ b)
  else .error ⟨outputSchemaOf a, inputSchemaOf b⟩

/-- Modelled from the spec: `invoke` runs the stages strictly in declared
order, feeding each stage's output to the next stage; the first stage
failure aborts the run with that `StageError`. -/
def invokeChain : List Stage → Value → Except StageError Value
  | [], x => .ok x
  | s :: rest, x =>
    match s.run x with
    | .error e => .error e
    | .ok y => invokeChain rest y

/-- Modelled from the spec: `invoke` instrumented with a call trace — it
additionally returns the names of the stages that were actually invoked,
in invocation order. -/
def invokeTrace : List Stage → Value → List String × Except StageError Value
  | [], x => ([], .ok x)
  | s :: rest, x =>
    match s.run x with
    | .error e => ([s.name], .error e)
    | .ok y =>
      let p := invokeTrace rest y
      (s.name :: p.1, p.2)

/-- Modelled from the spec: the adjacency invariant of a chain — every
adjacent pair of stages has assignable schemas. -/
def validAdjacent : List Stage → Bool
  | [] => true
  | [_] => true
  | s :: t :: rest => assignable s.output_schema t.input_schema && validAdjacent (t :: rest)

/-- Replace a stage's declared schemas, keeping its behaviour. -/
def withSchemas (σ τ : Schema) (s : Stage) : Stage :=
  { s with input_schema := σ, output_schema := τ }

/-- Modelled from the spec: outcome of one engine invocation — the
terminal states of the per-invocation state machine that the claims
exercise (`COMPLETED`, `FAILED`, `DeadlineExceeded`). -/
inductive Outcome where
  | completed (output : Value)
  | failed (e : StageError)
  | deadlineExceeded
 
/-- Modelled from the spec: run a chain under an optional deadline; each
stage consumes one time unit, and when the budget is exhausted before a
stage runs the invocation ends with `deadlineExceeded`; otherwise the run
is the fail-fast `invoke`. -/
def runWithDeadline : Option Nat → List Stage → Value → Outcome
  | _, [], x => .completed x
  | none, s :: rest, x =>
    match s.run x with
    | .error e => .failed e
    | .ok y => runWithDeadline none rest y
  | some 0, _ :: _, _ => .deadlineExceeded
  | some (Nat.succ d), s :: rest, x =>
    match s.run x with
    | .error e => .failed e
    | .ok y => runWithDeadline (some d) rest y

/-- Whether a per-element invocation result succeeded. -/
def isOk : Except StageError Value → Bool
  | .ok _ => true
  | .error _ => false

/-- Modelled from the spec: `invoke_batch(xs)` runs `invoke` on each
element independently, preserving positional correspondence. -/
def invoke_batch (c : List Stage) (xs : List Value) : List (Except StageError Value) :=
  xs.map (invokeChain c)

/-- Modelled from the spec: the overall status of an invocation result —
`success`, `partialSuccess` (some but not all elements failed) or
`failure`. -/
inductive InvStatus where
  | success
  | partialSuccess
  | failure
deriving DecidableEq

/-- Modelled from the spec: the overall status of a batch — all elements
succeeded, all failed, or a mix. -/
def batchStatus (rs : List (Except StageError Value)) : InvStatus :=
  if rs.all isOk then .success
  else if rs.any isOk then .partialSuccess
  else .failure

/-- Modelled from the spec: an event of a streaming response — a framed
output fragment or the explicit terminal marker. -/
inductive StreamEvent where
  | fragment (v : Value)
  | terminal

/-- Whether a stream event is the terminal marker. -/
def isTerminal : StreamEvent → Bool
  | .terminal => true
  | .fragment _ => false

/-- Modelled from the spec: `invoke_stream` yields the stage's fragments
as fragment events followed by exactly one terminal marker. -/
def invoke_stream (s : Stage) (x : Value) : List StreamEvent :=
  (s.stream x).map .fragment ++ [.terminal]

/-- Modelled from the spec: `derive_schema(stage)` — the pair of the
stage's declared input and output schemas. -/
def derive_schema (s : Stage) : Schema × Schema :=
  (s.input_schema, s.output_schema)

/-- Modelled from the spec: a chain packaged as a Stage (a chain itself
satisfies the StageSpec contract): its input schema is the first stage's
input schema, its output schema the last stage's output schema, and its
call is `invoke` of the chain. -/
def chainToStage (nm : String) (c : List Stage) : Stage where
  name := nm
  input_schema := inputSchemaOf c
  output_schema := outputSchemaOf c
  run := invokeChain c

/-- Modelled from the spec: the structured body of an HTTP response from
the binding layer — an output value or a structured error. -/
inductive HttpBody where
  | out (v : Value)
  | validationFailure (e : ValidationError)
  | stageFailure (e : StageError)
  | deadlineFailure

/-- An HTTP response: numeric status and structured body. -/
structure HttpResponse where
  status : Nat
  body : HttpBody

/-- Modelled from the spec: the handler of `POST /invoke` for a mounted
chain — the body is validated against the chain's input schema
(validation error maps to 422), then the engine runs the chain (success
maps to 200, stage failure to 500, deadline exceeded to 504); every
request yields a structured response. -/
def handleInvoke (c : List Stage) (deadline : Option Nat) (reqBody : Value) : HttpResponse :=
  match validate (inputSchemaOf c) reqBody with
  | .error e => ⟨422, .validationFailure e⟩
  | .ok v =>
    match runWithDeadline deadline c v with
    | .completed out => ⟨200, .out out⟩
    | .failed e => ⟨500, .stageFailure e⟩
    | .deadlineExceeded => ⟨504, .deadlineFailure⟩

/-- A piece of a prompt template: literal text or a named variable slot. -/
inductive TmplPart where
  | lit (s : String)
  | var (n : String)

/-- Look up a template variable's value. -/
def lookupVar : List (String × String) → String → Option String
  | [], _ => none
  | (k, v) :: rest, n => if k = n then some v else lookupVar rest n

/-- Render a template against a variable assignment: literals are kept,
variable slots are replaced by their values. -/
def renderParts (parts : List TmplPart) (vars : List (String × String)) : String :=
  parts.foldl
    (fun acc p =>
      acc ++ match p with
             | .lit s => s
             | .var n => (lookupVar vars n).getD "")
    ""

/-- The source's system template, `"Translate the following into
\x7blanguage\x7d:"`, in parsed form: literal text around the `language`
variable slot. -/
def systemTemplateParts : List TmplPart :=
  [.lit "Translate the following into ", .var "language", .lit ":"]

/-- The source's user template, `"\x7btext\x7d"`, in parsed form: a single
`text` variable slot. -/
def userTemplateParts : List TmplPart :=
  [.var "text"]

/-- The messages produced by the source's `prompt_template` for a given
`language` and `text`: the rendered system message followed by the
rendered user message. -/
def templateMessages (lang text : String) : List ChatMessage :=
  [ ⟨.system, renderParts systemTemplateParts [("language", lang), ("text", text)]⟩,
    ⟨.user, renderParts userTemplateParts [("language", lang), ("text", text)]⟩ ]

/-- The source's `prompt_template` as a Stage: it consumes an object with
required string fields `language` and `text` and produces the rendered
chat messages. -/
def templateStage : Stage where
  name := "prompt_template"
  input_schema := .obj [("language", ⟨.fString, true⟩), ("text", ⟨.fString, true⟩)]
  output_schema := .messagesS
  run := fun v =>
    match v with
    | .vObj fields =>
      match lookupField fields "language", lookupField fields "text" with
      | some (.vStr lang), some (.vStr text) => .ok (.vMessages (templateMessages lang text))
      | _, _ => .error ⟨"prompt_template", "missing template variable"⟩
    | _ => .error ⟨"prompt_template", "expected an object"⟩

/-- The source's `model` as a Stage, parameterised by the backend's
response function (the concrete network client is an external
collaborator): it consumes the prompt messages and produces one assistant
message whose content is the backend's response. -/
def modelStage (respond : List ChatMessage → String) : Stage where
  name := "model"
  input_schema := .messagesS
  output_schema := .messageS
  run := fun v =>
    match v with
    | .vMessages msgs => .ok (.vMessage ⟨.assistant, respond msgs⟩)
    | _ => .error ⟨"model", "expected messages"⟩

/-- The source's `parser` (a string output parser) as a Stage: it turns a
model message into its content string, passes plain strings through, and
fails on anything else. -/
def parserStage : Stage where
  name := "parser"
  input_schema := .messageS
  output_schema := .strS
  run := fun v =>
    match v with
    | .vMessage m => .ok (.vStr m.content)
    | .vStr s => .ok (.vStr s)
    | _ => .error ⟨"parser", "expected a message"⟩

/-- The source's `chain = prompt_template | model | parser`, with the
model's backend response function as a parameter. -/
def serveChain (respond : List ChatMessage → String) : List Stage :=
  [templateStage, modelStage respond, parserStage]

/-- Render a chat transcript to a single string, one `Role: content` line
per message. -/
def messagesToString (msgs : List ChatMessage) : String :=
  String.intercalate "\n"
    (msgs.map (fun m =>
      (match m.role with
       | .system => "System"
       | .user => "Human"
       | .assistant => "AI") ++ ": " ++ m.content))

/-- Modelled from the spec: the stub echo model of the round-trip
property — a backend that answers with the rendered prompt itself. -/
def echoChain : List Stage :=
  serveChain messagesToString

/-- A process environment: variable name to optional value. -/
def Env : Type := String → Option String

/-- Set one environment variable, leaving all others unchanged. -/
def setEnv (env : Env) (k v : String) : Env :=
  fun k' => if k' = k then some v else env k'

/-- The environment mutation the source performs at import time
(`os.environ["OPENAI_API_BASE"] = "http://localhost:9999/"` then
`os.environ["OPENAI_API_KEY"] = "123456789"`), before the model client is
constructed. -/
def importEnvSetup (env : Env) : Env :=
  setEnv (setEnv env "OPENAI_API_BASE" "http://localhost:9999/") "OPENAI_API_KEY" "123456789"

/-- A trivial string-to-string stage used as a concrete test stage. -/
def strStage (nm : String) : Stage where
  name := nm
  input_schema := .strS
  output_schema := .strS
  run := fun v => .ok v

/-- A stage that always fails, used as a concrete test stage. -/
def failStage : Stage where
  name := "boom"
  input_schema := .strS
  output_schema := .strS
  run := fun _ => .error ⟨"boom", "always fails"⟩

theorem outputSchemaOf_cons (x : Stage) (l : List Stage) (h : l ≠ []) :
    outputSchemaOf (x :: l) = outputSchemaOf l := by
  cases l with
  | nil => exact absurd rfl h
  | cons y ys => rfl

theorem outputSchemaOf_append (a b : List Stage) (h : b ≠ []) :
    outputSchemaOf (a ++ b) = outputSchemaOf b := by
  induction a with
  | nil => rfl
  | cons x xs ih =>
      rw [List.cons_append, outputSchemaOf_cons x (xs ++ b) ?_, ih]
      intro hc
      exact h (List.append_eq_nil.mp hc).2

theorem inputSchemaOf_append (a b : List Stage) (h : a ≠ []) :
    inputSchemaOf (a ++ b) = inputSchemaOf a := by
  cases a with
  | nil => exact absurd rfl h
  | cons x xs => rfl

theorem compose_eq_ok {a b c : List Stage} (h : compose a b = .ok c) :
    assignable (outputSchemaOf a) (inputSchemaOf b) = true ∧ c = a ++ b := by
  by_cases hc : assignable (outputSchemaOf a) (inputSchemaOf b) = true
  · refine ⟨hc, ?_⟩
    simp [compose, hc] at h
    exact h.symm
  · simp [compose, hc] at h

theorem compose_of_assignable {a b : List Stage}
    (h : assignable (outputSchemaOf a) (inputSchemaOf b) = true) :
    compose a b = .ok (a ++ b) := by
  simp [compose, h]

theorem invokeTrace_snd (c : List Stage) (x : Value) :
    (invokeTrace c x).2 = invokeChain c x := by
  induction c generalizing x with
  | nil => rfl
  | cons s rest ih =>
      cases hr : s.run x with
      | error e => simp [invokeTrace, invokeChain, hr]
      | ok y => simp [invokeTrace, invokeChain, hr, ih]

theorem invokeTrace_append_of_ok {pre : List Stage} {x v : Value}
    (h : invokeChain pre x = .ok v) (rest2 : List Stage) :
    invokeTrace (pre ++ rest2) x =
      (pre.map Stage.name ++ (invokeTrace rest2 v).1, (invokeTrace rest2 v).2) := by
  induction pre generalizing x with
  | nil =>
      simp [invokeChain] at h
      subst h
      simp
  | cons s rest ih =>
      cases hr : s.run x with
      | error e => simp [invokeChain, hr] at h
      | ok y =>
          simp [invokeChain, hr] at h
          simp [invokeTrace, hr, ih h]

theorem invokeTrace_cons_error {s : Stage} {x : Value} {e : StageError}
    (post : List Stage) (h : s.run x = .error e) :
    invokeTrace (s :: post) x = ([s.name], .error e) := by
  simp [invokeTrace, h]

/-- C1: composition is associative — when `compose(a,b)` and
`compose(compose(a,b),c)` both succeed, `compose(b,c)` and
`compose(a,compose(b,c))` also succeed and produce the very same chain,
so the two associations have the same result on every input, identical
input/output schemas, and invoke the stages in the same order. -/
theorem compose_associative (a b c ab abc : List Stage) (hb : b ≠ [])
    (hab : compose a b = .ok ab) (habc : compose ab c = .ok abc) :
    ∃ bc, compose b c = .ok bc ∧ compose a bc = .ok abc ∧
      bc = b ++ c ∧ abc = a ++ b ++ c ∧
      inputSchemaOf abc = inputSchemaOf (a ++ bc) ∧
      outputSchemaOf abc = outputSchemaOf (a ++ bc) ∧
      (∀ x, invokeChain abc x = invokeChain (a ++ bc) x) ∧
      abc.map Stage.name = (a ++ bc).map Stage.name := by
  obtain ⟨ha1, hab'⟩ := compose_eq_ok hab
  subst hab'
  obtain ⟨ha2, habc'⟩ := compose_eq_ok habc
  rw [outputSchemaOf_append a b hb] at ha2
  have hbc : compose b c = .ok (b ++ c) := compose_of_assignable ha2
  have ha3 : assignable (outputSchemaOf a) (inputSchemaOf (b ++ c)) = true := by
    rw [inputSchemaOf_append b c hb]
    exact ha1
  have habc2 : compose a (b ++ c) = .ok (a ++ (b ++ c)) := compose_of_assignable ha3
  have heq : a ++ (b ++ c) = a ++ b ++ c := (List.append_assoc a b c).symm
  subst habc'
  refine ⟨b ++ c, hbc, ?_, rfl, rfl, ?_, ?_, ?_, ?_⟩
  · rw [habc2, heq]
  · rw [List.append_assoc]
  · rw [List.append_assoc]
  · intro x
    rw [List.append_assoc]
  · rw [List.append_assoc]

/-- Witness for C1 at three concrete compatible stages. -/
theorem compose_associative_witness :
    ∃ bc, compose [strStage "b"] [strStage "c"] = .ok bc ∧
      compose [strStage "a"] bc = .ok [strStage "a", strStage "b", strStage "c"] ∧
      bc = [strStage "b"] ++ [strStage "c"] ∧
      [strStage "a", strStage "b", strStage "c"] =
        [strStage "a"] ++ [strStage "b"] ++ [strStage "c"] ∧
      inputSchemaOf [strStage "a", strStage "b", strStage "c"] =
        inputSchemaOf ([strStage "a"] ++ bc) ∧
      outputSchemaOf [strStage "a", strStage "b", strStage "c"] =
        outputSchemaOf ([strStage "a"] ++ bc) ∧
      (∀ x, invokeChain [strStage "a", strStage "b", strStage "c"] x =
        invokeChain ([strStage "a"] ++ bc) x) ∧
      ([strStage "a", strStage "b", strStage "c"]).map Stage.name =
        (([strStage "a"] ++ bc)).map Stage.name :=
  compose_associative [strStage "a"] [strStage "b"] [strStage "c"]
    [strStage "a", strStage "b"] [strStage "a", strStage "b", strStage "c"]
    (by simp) (by rfl) (by rfl)

/-- C2: chain invocation is fail-fast — when the stages before `s` all
succeed (producing `v`) and `s` fails on `v` with error `e`, the
instrumented run shows that exactly the prefix stages and `s` were
invoked in declared order (no stage of `post` runs), and `invoke`
returns that first `StageError`. -/
theorem invoke_fail_fast (pre post : List Stage) (s : Stage) (x v : Value) (e : StageError)
    (hpre : invokeChain pre x = .ok v) (hs : s.run v = .error e) :
    invokeTrace (pre ++ s :: post) x = (pre.map Stage.name ++ [s.name], .error e) ∧
    invokeChain (pre ++ s :: post) x = .error e := by
  have h1 := invokeTrace_append_of_ok hpre (s :: post)
  rw [invokeTrace_cons_error post hs] at h1
  refine ⟨h1, ?_⟩
  have h2 := invokeTrace_snd (pre ++ s :: post) x
  rw [h1] at h2
  exact h2.symm

/-- Witness for C2 at a concrete three-stage chain whose second stage
fails: the third stage does not appear in the trace. -/
theorem invoke_fail_fast_witness :
    invokeTrace ([strStage "s1"] ++ failStage :: [strStage "s3"]) (.vStr "x") =
      ([strStage "s1"].map Stage.name ++ [failStage.name],
        .error ⟨"boom", "always fails"⟩) ∧
    invokeChain ([strStage "s1"] ++ failStage :: [strStage "s3"]) (.vStr "x") =
      .error ⟨"boom", "always fails"⟩ :=
  invoke_fail_fast [strStage "s1"] [strStage "s3"] failStage (.vStr "x") (.vStr "x")
    ⟨"boom", "always fails"⟩ (by rfl) (by rfl)

theorem validAdjacent_append {a b : List Stage} (ha : validAdjacent a = true)
    (hb : validAdjacent b = true)
    (hab : assignable (outputSchemaOf a) (inputSchemaOf b) = true) :
    validAdjacent (a ++ b) = true := by
  induction a with
  | nil => simpa using hb
  | cons x xs ih =>
      cases xs with
      | nil =>
          cases b with
          | nil => simpa using ha
          | cons y ys =>
              simp only [List.singleton_append, validAdjacent, Bool.and_eq_true]
              exact ⟨hab, hb⟩
      | cons x' xs' =>
          simp only [validAdjacent, Bool.and_eq_true] at ha
          have hout : outputSchemaOf (x :: x' :: xs') = outputSchemaOf (x' :: xs') := rfl
          rw [hout] at hab
          have htail := ih ha.2 hab
          simp only [List.cons_append] at htail ⊢
          simp only [validAdjacent, Bool.and_eq_true] at htail ⊢
          exact ⟨ha.1, htail⟩

theorem invokeChain_withSchemas (σ τ : Schema) (c : List Stage) (x : Value) :
    invokeChain (c.map (withSchemas σ τ)) x = invokeChain c x := by
  induction c generalizing x with
  | nil => rfl
  | cons s rest ih =>
      have hrun : (withSchemas σ τ s).run = s.run := rfl
      cases hr : s.run x with
      | error e => simp [invokeChain, withSchemas, hr]
      | ok y => simp [invokeChain, withSchemas, hr, ih]

/-- C3: schema compatibility is decided at composition time, not at call
time — `compose(a,b)` succeeds exactly when `a`'s output schema is
structurally assignable to `b`'s input schema and otherwise fails with
the `CompositionError` recording the two schemas; a chain built by a
successful composition of valid chains satisfies the adjacency
invariant at every adjacent pair; and invocation never consults the
declared schemas. -/
theorem compose_checks_at_composition_time (a b : List Stage) :
    ((∃ ab, compose a b = .ok ab) ↔
      assignable (outputSchemaOf a) (inputSchemaOf b) = true) ∧
    (assignable (outputSchemaOf a) (inputSchemaOf b) = false →
      compose a b = .error ⟨outputSchemaOf a, inputSchemaOf b⟩) ∧
    (∀ ab, validAdjacent a = true → validAdjacent b = true → compose a b = .ok ab →
      validAdjacent ab = true) ∧
    (∀ σ τ x, invokeChain (a.map (withSchemas σ τ)) x = invokeChain a x) := by
  refine ⟨⟨?_, ?_⟩, ?_, ?_, ?_⟩
  · rintro ⟨ab, h⟩
    exact (compose_eq_ok h).1
  · intro h
    exact ⟨a ++ b, compose_of_assignable h⟩
  · intro h
    simp [compose, h]
  · intro ab ha hb h
    obtain ⟨hassign, hab⟩ := compose_eq_ok h
    subst hab
    exact validAdjacent_append ha hb hassign
  · intro σ τ x
    exact invokeChain_withSchemas σ τ a x

/-- Witness for C3: a concrete two-stage composition yields a chain
satisfying the adjacency invariant. -/
theorem compose_checks_witness :
    validAdjacent [strStage "a", strStage "b"] = true :=
  (compose_checks_at_composition_time [strStage "a"] [strStage "b"]).2.2.1
    [strStage "a", strStage "b"] (by rfl) (by rfl) (by rfl)

theorem batchStatus_partial_iff (rs : List (Except StageError Value)) :
    batchStatus rs = .partialSuccess ↔
      ((∃ r ∈ rs, isOk r = false) ∧ (∃ r ∈ rs, isOk r = true)) := by
  unfold batchStatus
  by_cases h1 : rs.all isOk
  · have hall := List.all_eq_true.mp h1
    simp only [h1, if_true]
    constructor
    · intro h
      exact absurd h (by simp)
    · rintro ⟨⟨r, hr, hfalse⟩, _⟩
      rw [hall r hr] at hfalse
      exact absurd hfalse (by simp)
  · by_cases h2 : rs.any isOk
    · have hany := List.any_eq_true.mp h2
      have hnall : ∃ r ∈ rs, isOk r = false := by
        rcases List.all_eq_true.not.mp h1 with h
        push_neg at h
        rcases h with ⟨r, hr, hner⟩
        exact ⟨r, hr, by simpa using hner⟩
      simp only [h1, if_false, h2, if_true]
      exact ⟨fun _ => ⟨hnall, hany⟩, fun _ => rfl⟩
    · simp only [h1, if_false, h2]
      constructor
      · intro h
        exact absurd h (by simp)
      · rintro ⟨_, ⟨r, hr, htrue⟩⟩
        exact absurd (List.any_eq_true.mpr ⟨r, hr, htrue⟩) h2

/-- C4: batch invocation is element-independent — `invoke_batch` has one
result per input preserving positional correspondence, each result is
exactly `invoke` of the corresponding element (so one element's failure
cannot abort the others), and the overall status is `partialSuccess`
exactly when some but not all elements failed. -/
theorem invoke_batch_element_independent (c : List Stage) (xs : List Value) :
    (invoke_batch c xs).length = xs.length ∧
    (∀ i (h1 : i < xs.length) (h2 : i < (invoke_batch c xs).length),
      (invoke_batch c xs).get ⟨i, h2⟩ = invokeChain c (xs.get ⟨i, h1⟩)) ∧
    (batchStatus (invoke_batch c xs) = .partialSuccess ↔
      ((∃ r ∈ invoke_batch c xs, isOk r = false) ∧
       (∃ r ∈ invoke_batch c xs, isOk r = true))) := by
  refine ⟨by simp [invoke_batch], ?_, batchStatus_partial_iff _⟩
  intro i h1 h2
  simp [invoke_batch]

/-- Witness for C4 at a concrete batch whose middle element fails: the
second result is exactly the invocation of the second element. -/
theorem invoke_batch_witness :
    (invoke_batch [parserStage] [Value.vStr "a", Value.vObj [], Value.vStr "b"]).get
        ⟨1, by simp [invoke_batch]⟩ =
      invokeChain [parserStage]
        (([Value.vStr "a", Value.vObj [], Value.vStr "b"] : List Value).get ⟨1, by simp⟩) :=
  (invoke_batch_element_independent [parserStage]
      [Value.vStr "a", Value.vObj [], Value.vStr "b"]).2.1 1 (by simp) (by simp [invoke_batch])

theorem inputSchemaOf_eq_head (c : List Stage) (h : c ≠ []) :
    inputSchemaOf c = (c.head h).input_schema := by
  cases c with
  | nil => exact absurd rfl h
  | cons x xs => rfl

theorem outputSchemaOf_eq_getLast (c : List Stage) (h : c ≠ []) :
    outputSchemaOf c = (c.getLast h).output_schema := by
  induction c with
  | nil => exact absurd rfl h
  | cons x xs ih =>
      cases xs with
      | nil => rfl
      | cons y ys =>
          rw [outputSchemaOf_cons x (y :: ys) (by simp), ih (by simp)]
          congr 1

/-- C5: a chain is itself a Stage satisfying the StageSpec contract — its
derived input schema is the first stage's input schema, its derived
output schema is the last stage's output schema, and its call is exactly
`invoke` of the chain. -/
theorem chain_schema_consistency (nm : String) (c : List Stage) (h : c ≠ []) :
    derive_schema (chainToStage nm c) =
      ((c.head h).input_schema, (c.getLast h).output_schema) ∧
    (chainToStage nm c).run = invokeChain c := by
  refine ⟨?_, rfl⟩
  unfold derive_schema chainToStage
  rw [inputSchemaOf_eq_head c h, outputSchemaOf_eq_getLast c h]

/-- Witness for C5 at the mounted translation chain. -/
theorem chain_schema_consistency_witness :
    derive_schema (chainToStage "chain" echoChain) =
      ((echoChain.head (by simp [echoChain, serveChain])).input_schema,
       (echoChain.getLast (by simp [echoChain, serveChain])).output_schema) ∧
    (chainToStage "chain" echoChain).run = invokeChain echoChain :=
  chain_schema_consistency "chain" echoChain (by simp [echoChain, serveChain])

/-- The request body of the round-trip property:
`{"language":"French","text":"hello"}`. -/
def frBody : Value :=
  .vObj [("language", .vStr "French"), ("text", .vStr "hello")]

/-- A request body missing the required `text` field. -/
def frBodyMissingText : Value :=
  .vObj [("language", .vStr "French")]

/-- The rendered template string for `language = "French"`,
`text = "hello"`: the transcript rendering of the prompt messages the
source template produces. -/
def renderedTemplateString : String :=
  messagesToString (templateMessages "French" "hello")

/-- C6: HTTP round-trip of the mounted translation chain — `POST /invoke`
with `{"language":"French","text":"hello"}` against the
template / echo-model / parser chain returns status 200 with the rendered
template string as body, and a request body lacking the required `text`
field returns status 422 with a ValidationError referencing `text`. -/
theorem http_round_trip :
    handleInvoke echoChain none frBody =
      ⟨200, .out (.vStr renderedTemplateString)⟩ ∧
    handleInvoke echoChain none frBodyMissingText =
      ⟨422, .validationFailure ⟨"text"⟩⟩ := by
  constructor
  · rfl
  · rfl

/-- C7: error-to-status mapping of the HTTP binding layer — a request
whose body fails validation yields 422 with the validation error, a
stage failure yields 500 with the stage error, an exceeded deadline
yields 504, and every request produces a structured response with one of
the statuses 200, 422, 500, 504 (the handler is total, so a failing
request cannot crash the serving process). -/
theorem http_status_mapping (c : List Stage) (d : Option Nat) (b : Value) :
    (∀ e, validate (inputSchemaOf c) b = .error e →
      handleInvoke c d b = ⟨422, .validationFailure e⟩) ∧
    (∀ v e, validate (inputSchemaOf c) b = .ok v → runWithDeadline d c v = .failed e →
      handleInvoke c d b = ⟨500, .stageFailure e⟩) ∧
    (∀ v, validate (inputSchemaOf c) b = .ok v →
      runWithDeadline d c v = .deadlineExceeded →
      handleInvoke c d b = ⟨504, .deadlineFailure⟩) ∧
    ((handleInvoke c d b).status = 200 ∨ (handleInvoke c d b).status = 422 ∨
     (handleInvoke c d b).status = 500 ∨ (handleInvoke c d b).status = 504) := by
  refine ⟨?_, ?_, ?_, ?_⟩
  · intro e he
    simp [handleInvoke, he]
  · intro v e hv hr
    simp [handleInvoke, hv, hr]
  · intro v hv hr
    simp [handleInvoke, hv, hr]
  · unfold handleInvoke
    cases hv : validate (inputSchemaOf c) b with
    | error e => simp
    | ok v =>
        cases hr : runWithDeadline d c v with
        | completed out => simp [hr]
        | failed e => simp [hr]
        | deadlineExceeded => simp [hr]

/-- Witness for C7 at a concrete request that fails validation: the
`language` field is absent, so the response is 422. -/
theorem http_status_mapping_witness :
    handleInvoke echoChain none (.vObj []) =
      ⟨422, .validationFailure ⟨"language"⟩⟩ :=
  (http_status_mapping echoChain none (.vObj [])).1 ⟨"language"⟩ (by rfl)

theorem countP_isTerminal_fragments (l : List Value) :
    (l.map StreamEvent.fragment).countP isTerminal = 0 := by
  induction l with
  | nil => rfl
  | cons v vs ih => simp [List.countP_cons, isTerminal, ih]

/-- C8: streaming termination and replay determinism — `invoke_stream`
on a stage producing `n` fragments yields exactly those `n` fragment
events in order followed by exactly one terminal marker, and consuming
the stream twice from a restart yields the identical sequence. -/
theorem invoke_stream_termination (s : Stage) (x : Value) (n : Nat)
    (h : (s.stream x).length = n) :
    invoke_stream s x = (s.stream x).map StreamEvent.fragment ++ [StreamEvent.terminal] ∧
    (invoke_stream s x).length = n + 1 ∧
    (invoke_stream s x).take n = (s.stream x).map StreamEvent.fragment ∧
    (invoke_stream s x).drop n = [StreamEvent.terminal] ∧
    (invoke_stream s x).countP isTerminal = 1 ∧
    invoke_stream s x = invoke_stream s x := by
  refine ⟨rfl, ?_, ?_, ?_, ?_, rfl⟩
  · simp [invoke_stream, h]
  · exact List.take_left' (by simp [h])
  · exact List.drop_left' (by simp [h])
  · simp [invoke_stream, List.countP_append, countP_isTerminal_fragments, isTerminal]

/-- A stub stage whose stream produces exactly three fragments; used as
the concrete streaming witness. -/
def threeFragmentStage : Stage where
  name := "stub"
  input_schema := .strS
  output_schema := .strS
  run := fun v => .ok v
  stream := fun _ => [.vStr "a", .vStr "b", .vStr "c"]

/-- Witness for C8 at a stub stage producing three fragments. -/
theorem invoke_stream_termination_witness :
    invoke_stream threeFragmentStage (.vStr "x") =
      (threeFragmentStage.stream (.vStr "x")).map StreamEvent.fragment ++
        [StreamEvent.terminal] ∧
    (invoke_stream threeFragmentStage (.vStr "x")).length = 3 + 1 ∧
    (invoke_stream threeFragmentStage (.vStr "x")).take 3 =
      (threeFragmentStage.stream (.vStr "x")).map StreamEvent.fragment ∧
    (invoke_stream threeFragmentStage (.vStr "x")).drop 3 = [StreamEvent.terminal] ∧
    (invoke_stream threeFragmentStage (.vStr "x")).countP isTerminal = 1 ∧
    invoke_stream threeFragmentStage (.vStr "x") =
      invoke_stream threeFragmentStage (.vStr "x") :=
  invoke_stream_termination threeFragmentStage (.vStr "x") 3 (by rfl)

theorem parser_run_vStr {w v : Value} (h : parserStage.run w = .ok v) :
    ∃ s, v = Value.vStr s := by
  cases w with
  | vStr s =>
      simp [parserStage] at h
      exact ⟨s, h.symm⟩
  | vObj fs => simp [parserStage] at h
  | vMessages ms => simp [parserStage] at h
  | vMessage m =>
      simp [parserStage] at h
      exact ⟨m.content, h.symm⟩

theorem invokeChain_cons_ok {s : Stage} {rest : List Stage} {x v : Value}
    (h : invokeChain (s :: rest) x = .ok v) :
    ∃ y, s.run x = .ok y ∧ invokeChain rest y = .ok v := by
  cases hr : s.run x with
  | error e => simp [invokeChain, hr] at h
  | ok y =>
      simp [invokeChain, hr] at h
      exact ⟨y, rfl, h⟩

theorem serveChain_ok_vStr (respond : List ChatMessage → String) (x v : Value)
    (h : invokeChain (serveChain respond) x = .ok v) : ∃ s, v = Value.vStr s := by
  simp only [serveChain] at h
  obtain ⟨y, ht, h1⟩ := invokeChain_cons_ok h
  obtain ⟨z, hm, h2⟩ := invokeChain_cons_ok h1
  obtain ⟨w, hp, h3⟩ := invokeChain_cons_ok h2
  simp [invokeChain] at h3
  subst h3
  exact parser_run_vStr hp

/-- C9: every accepted input of the mounted chain yields a plain string —
since the last stage of `chain = prompt_template | model | parser` is the
string output parser, a successful invocation in single, batch or
streaming mode always produces a string-typed value, never a structured
message object, whatever the model backend answers. -/
theorem serve_chain_output_is_string (respond : List ChatMessage → String) :
    (∀ x v, invokeChain (serveChain respond) x = .ok v → ∃ s, v = Value.vStr s) ∧
    (∀ xs r w, r ∈ invoke_batch (serveChain respond) xs → r = .ok w →
      ∃ s, w = Value.vStr s) ∧
    (∀ x ev, ev ∈ invoke_stream (chainToStage "chain" (serveChain respond)) x →
      ev = StreamEvent.terminal ∨ ∃ s, ev = StreamEvent.fragment (Value.vStr s)) := by
  refine ⟨fun x v h => serveChain_ok_vStr respond x v h, ?_, ?_⟩
  · intro xs r w hr hw
    rcases List.mem_map.mp hr with ⟨x', hx', rfl⟩
    exact serveChain_ok_vStr respond x' w hw
  · intro x ev hev
    simp only [invoke_stream] at hev
    rcases List.mem_append.mp hev with hl | hrt
    · rcases List.mem_map.mp hl with ⟨y, hy, rfl⟩
      right
      have hst : (chainToStage "chain" (serveChain respond)).stream x =
          match invokeChain (serveChain respond) x with
          | .ok w => [w]
          | .error _ => [] := rfl
      rw [hst] at hy
      cases hinv : invokeChain (serveChain respond) x with
      | error e => rw [hinv] at hy; simp at hy
      | ok w =>
          rw [hinv] at hy
          simp at hy
          obtain ⟨s, hs⟩ := serveChain_ok_vStr respond x w hinv
          exact ⟨s, by rw [hy, hs]⟩
    · left
      simpa using hrt

/-- Witness for C9 at the concrete translation request: the successful
output is the string-typed rendered template. -/
theorem serve_chain_output_is_string_witness :
    ∃ s, Value.vStr renderedTemplateString = Value.vStr s :=
  (serve_chain_output_is_string messagesToString).1 frBody
    (Value.vStr renderedTemplateString) (by rfl)

/-- C10: importing the module overwrites exactly the two environment
variables `OPENAI_API_BASE` (to the local backend URL) and
`OPENAI_API_KEY` (to the dummy key), regardless of any pre-existing
values, and leaves every other environment variable unchanged. -/
theorem import_env_mutation (env : Env) :
    importEnvSetup env "OPENAI_API_BASE" = some "http://localhost:9999/" ∧
    importEnvSetup env "OPENAI_API_KEY" = some "123456789" ∧
    (∀ k, k ≠ "OPENAI_API_BASE" → k ≠ "OPENAI_API_KEY" →
      importEnvSetup env k = env k) := by
  refine ⟨rfl, rfl, ?_⟩
  intro k h1 h2
  simp [importEnvSetup, setEnv, h1, h2]

/-- Witness for C10 at a concrete environment and an unrelated variable:
`PATH` is untouched. -/
theorem import_env_mutation_witness :
    importEnvSetup (fun _ => none) "PATH" = (fun _ => none : Env) "PATH" :=
  (import_env_mutation (fun _ => none)).2.2 "PATH" (by decide) (by decide)
